import Mathlib

/-! Shallow embedding of `src/whatsapp/client.py` (class `WhatsappClient`):
the command registry, the listener registries, the error handling policy
(`__handle_error`), the polling/dispatch loop of `run`, the built-in help
menu and `send_file`.  Transport plumbing (selenium calls) is abstracted:
a fetched message is an `Option Message`, and text submitted to the chat
input is recorded as `Event.send` entries of an event trace. -/

namespace WClient

/-- Python strings are modelled as lists of characters. -/
abbrev Str := List Char

/-- View of a Lean string literal as the model's string type. -/
def str (s : String) : Str := s.data

/-- Whitespace recognised by Python `str.split()` (ASCII range; chat text in
the embedding only ever contains these). -/
def isPySpace (c : Char) : Bool :=
  c = ' ' || c = '\t' || c = '\n' || c = '\x0b' || c = '\x0c' || c = '\r'

/-- Helper for `pySplit`: `acc` holds the current token reversed. -/
def pySplitAux : Str → Str → List Str
  | [], acc => if acc = [] then [] else [acc.reverse]
  | c :: cs, acc =>
    if isPySpace c then
      if acc = [] then pySplitAux cs [] else acc.reverse :: pySplitAux cs []
    else pySplitAux cs (c :: acc)

/-- Python `str.split()` with no separator: split on runs of whitespace,
producing no empty tokens. -/
def pySplit (s : Str) : List Str := pySplitAux s []

/-- Helper for `splitLines`: `acc` holds the current line reversed. -/
def splitLinesAux : Str → Str → List Str
  | [], acc => if acc = [] then [] else [acc.reverse]
  | c :: cs, acc =>
    if c = '\n' then acc.reverse :: splitLinesAux cs []
    else splitLinesAux cs (c :: acc)

/-- Python `str.splitlines()` for texts whose only line separator is `\n`
(the only separator occurring in the client's messages): `""` gives `[]`,
and a trailing newline does not produce a trailing empty line. -/
def splitLines (s : Str) : List Str := splitLinesAux s []

/-- Does `pat` match at the head of the second argument? -/
def matchesAt : Str → Str → Bool
  | [], _ => true
  | _ :: _, [] => false
  | p :: ps, c :: cs => p == c && matchesAt ps cs

/-- Helper for `removeOcc`, structurally recursive on a fuel argument so
that it reduces in the kernel; each step consumes at least one character, so
fuel `s.length` always suffices. -/
def removeOccAux (pat : Str) : Nat → Str → Str
  | _, [] => []
  | 0, _ :: _ => []
  | fuel + 1, c :: cs =>
    if pat = [] then c :: removeOccAux pat fuel cs
    else if matchesAt pat (c :: cs) then removeOccAux pat fuel (cs.drop (pat.length - 1))
    else c :: removeOccAux pat fuel cs

/-- Python `s.replace(pat, "")`: remove non-overlapping occurrences of `pat`
from left to right (used by `__help_menu` as `command.replace(prefix, "")`).
An empty `pat` leaves the string unchanged, as in Python with `""` new text. -/
def removeOcc (pat : Str) (s : Str) : Str := removeOccAux pat s.length s

/-- Modelled from the spec: `whatsapp/message.py` is not under `src/`; per
spec §3 a message is immutable with a sender flag and a text.  The client
only reads `contents` (the text) in the dispatch loop, and passes the object
through to handlers. -/
structure Message where
  this_person : Bool
  contents : Str
deriving DecidableEq, Repr

/-- Python exception classes relevant to the client, by type: `TypeError`
(matched by `except TypeError` in `__process_commands`), the exception
classes of `whatsapp/exceptions.py` used by the dispatch loop, and `other`
for any other runtime exception. -/
inductive ExcKind where
  | typeError
  | commandNotFound
  | cannotFindMessage
  | invalidPfx
  | other
deriving DecidableEq, Repr

/-- An exception value: its class, its `str(...)` text and the traceback
text `traceback.format_exc()` would produce at the raise site. -/
structure Exc where
  kind : ExcKind
  msg : Str
  tb : Str
deriving DecidableEq, Repr

/-- Result of running a Python callable: normal return or a raised
exception. -/
inductive Outcome where
  | ok
  | raised (e : Exc)
deriving DecidableEq, Repr

/-- The three error-handling flags of `WhatsappClient.__init__`
(`disable_error_handling`, `debug_exception`, `debug_traceback`); all three
default to `False` (the Silent mode). -/
structure ErrorCfg where
  disable_error_handling : Bool
  debug_exception : Bool
  debug_traceback : Bool
deriving DecidableEq, Repr

/-- Observable steps of the dispatch loop: a loop-listener invocation, a
message-listener invocation (by registration index), a line submitted to the
chat input by `send_message`, the assignment `last_message = new_message`,
and a command handler invocation with its parsed arguments. -/
inductive Event where
  | loopRun (i : Nat)
  | listenerRun (i : Nat)
  | send (line : Str)
  | updateLast (t : Str)
  | commandRun (name : Str) (args : List Str)
deriving DecidableEq, Repr

/-- Effect of a code fragment: the trace of events it produced, whether it
set `__running` to `False` (via `stop()`), and the exception it re-raised to
its caller, if any. -/
structure Eff where
  events : List Event
  stopped : Bool
  raised : Option Exc
deriving DecidableEq, Repr

/-- Events of one `send_message(msg)` call: the text is split into lines and
each line is submitted separately. -/
def sendMsgEvents (msg : Str) : List Event := (splitLines msg).map Event.send

/-- Events of a sequence of `send_message` calls (one call per list
element). -/
def sendCallsEvents (msgs : List Str) : List Event :=
  (msgs.foldr (fun s acc => splitLines s ++ acc) []).map Event.send

/-- `WhatsappClient.__handle_error`: if `disable_error_handling`, call
`stop()` (which sets `__running = False`) and re-raise; otherwise send one of
the three diagnostic messages, checked in the order `debug_exception`,
`debug_traceback`, default. -/
def handleError (cfg : ErrorCfg) (e : Exc) : Eff :=
  if cfg.disable_error_handling then ⟨[], true, some e⟩
  else if cfg.debug_exception then
    ⟨sendMsgEvents (str "Error occurred:\n " ++ e.msg), false, none⟩
  else if cfg.debug_traceback then
    ⟨sendMsgEvents (str "Error occurred:\n " ++ e.tb), false, none⟩
  else ⟨sendMsgEvents (str "An unknown error occurred"), false, none⟩

/-- A command handler as stored in the registry: `arity2` records whether
the callable's signature accepts the two positional arguments
`(arguments, message_object)` — calling it otherwise raises `TypeError` at
the call site — and `body` gives, for an invocation, the list of texts the
handler itself passes to `send_message` before returning or raising. -/
structure PyFunc where
  arity2 : Bool
  body : List Str → Message → List Str × Outcome

instance : Inhabited PyFunc := ⟨⟨true, fun _ _ => ([], Outcome.ok)⟩⟩

/-- A message listener registered with `on_message`: invoked with the
message object, it may send texts and return or raise. -/
abbrev MsgListener := Message → List Str × Outcome

/-- A loop listener registered with `on_loop`. -/
abbrev LoopListener := Unit → List Str × Outcome

/-- The `TypeError` the interpreter raises when a callable is invoked with a
signature/arity mismatch (text is interpreter-generated; only the class
matters to `except TypeError`). -/
def typeErrorExc : Exc := ⟨ExcKind.typeError, str "TypeError", str "TypeError"⟩

/-- Calling `function(arguments, message_object)`: an arity mismatch raises
`TypeError` before any of the body runs. -/
def callFunc (f : PyFunc) (args : List Str) (m : Message) : List Str × Outcome :=
  if f.arity2 then f.body args m else ([], Outcome.raised typeErrorExc)

/-- The chat message `__process_commands` sends when the call raises
`TypeError` (Python source concatenation of the two adjacent literals). -/
def arityErrStr : Str :=
  str "An error occurred while executing the command. Perhaps the function doesn\x27t take 2 arguments?"

/-- `WhatsappClient.__process_commands`: run the handler; `except TypeError`
sends the arity diagnostic; any other exception goes to `__handle_error`. -/
def processCommands (cfg : ErrorCfg) (f : PyFunc) (args : List Str) (m : Message) : Eff :=
  match callFunc f args m with
  | (sends, Outcome.ok) => ⟨sendCallsEvents sends, false, none⟩
  | (sends, Outcome.raised e) =>
    if e.kind = ExcKind.typeError then
      ⟨sendCallsEvents sends ++ sendMsgEvents arityErrStr, false, none⟩
    else
      let h := handleError cfg e
      ⟨sendCallsEvents sends ++ h.events, h.stopped, h.raised⟩

/-- `WhatsappClient.__process_message_listeners`: each listener in
registration order, its own `try/except` routing any exception to
`__handle_error`; an exception re-raised by `__handle_error` (Propagate
mode) leaves the `for` loop at once.  `i` is the registration index of the
first listener of the list. -/
def processML (cfg : ErrorCfg) : List MsgListener → Nat → Message → Eff
  | [], _, _ => ⟨[], false, none⟩
  | l :: rest, i, m =>
    match l m with
    | (sends, Outcome.ok) =>
      let e2 := processML cfg rest (i + 1) m
      ⟨Event.listenerRun i :: (sendCallsEvents sends ++ e2.events), e2.stopped, e2.raised⟩
    | (sends, Outcome.raised exc) =>
      let h := handleError cfg exc
      match h.raised with
      | some e2 =>
        ⟨Event.listenerRun i :: (sendCallsEvents sends ++ h.events), h.stopped, some e2⟩
      | none =>
        let e2 := processML cfg rest (i + 1) m
        ⟨Event.listenerRun i :: (sendCallsEvents sends ++ h.events ++ e2.events),
          h.stopped || e2.stopped, e2.raised⟩

/-- `WhatsappClient.__process_loop_listeners`: same isolation structure as
`__process_message_listeners`, with no argument passed to the listener. -/
def processLL (cfg : ErrorCfg) : List LoopListener → Nat → Eff
  | [], _ => ⟨[], false, none⟩
  | l :: rest, i =>
    match l () with
    | (sends, Outcome.ok) =>
      let e2 := processLL cfg rest (i + 1)
      ⟨Event.loopRun i :: (sendCallsEvents sends ++ e2.events), e2.stopped, e2.raised⟩
    | (sends, Outcome.raised exc) =>
      let h := handleError cfg exc
      match h.raised with
      | some e2 =>
        ⟨Event.loopRun i :: (sendCallsEvents sends ++ h.events), h.stopped, some e2⟩
      | none =>
        let e2 := processLL cfg rest (i + 1)
        ⟨Event.loopRun i :: (sendCallsEvents sends ++ h.events ++ e2.events),
          h.stopped || e2.stopped, e2.raised⟩

/-- The command registry `self.__commands`: a Python dict mapping a command
name to the pair `[command_function, help_message]`.  Modelled as an
association list in insertion order (Python dicts preserve insertion order
and have unique keys). -/
abbrev Registry := List (Str × (PyFunc × Option Str))

/-- Python `name in dict` / `dict[name]`: first entry with the given key
(keys are unique for lists built by `dictInsert`). -/
def dictLookup (r : Registry) (n : Str) : Option (PyFunc × Option Str) :=
  (r.find? (fun p => decide (p.1 = n))).map Prod.snd

/-- Python `dict[name] = value`: overwrite in place if the key exists
(keeping its insertion position), else append. -/
def dictInsert (r : Registry) (n : Str) (v : PyFunc × Option Str) : Registry :=
  if r.any (fun p => decide (p.1 = n)) then
    r.map (fun p => if p.1 = n then (n, v) else p)
  else r ++ [(n, v)]

/-- The exception raised by `remove_command` on a missing name
(`whatsapp.exceptions.CommandNotFoundError`, class not under `src/`;
modelled from the spec's `CommandNotFound`). -/
def commandNotFoundExc : Exc := ⟨ExcKind.commandNotFound, str "CommandNotFoundError", str ""⟩

/-- `WhatsappClient.command(name, help_message)` applied to a handler: the
decorator stores `[command_function, help_message]` under `name`
unconditionally. -/
def registerCommand (r : Registry) (n : Str) (f : PyFunc) (helpMsg : Option Str) : Registry :=
  dictInsert r n (f, helpMsg)

/-- `WhatsappClient.remove_command`: `self.__commands.pop(name)`, raising
`CommandNotFoundError` (from the `KeyError`) when the name is absent. -/
def remove_command (r : Registry) (n : Str) : Except Exc Registry :=
  match dictLookup r n with
  | some _ => Except.ok (r.filter (fun p => decide (p.1 ≠ n)))
  | none => Except.error commandNotFoundExc

/-- The exception `whatsapp.exceptions.InvalidPrefixError` raised in `run`
(class not under `src/`; modelled from the spec's `InvalidPrefix`). -/
def invalidPfxExc : Exc := ⟨ExcKind.invalidPfx, str "InvalidPrefixError", str ""⟩

/-- Python `s[i]` as a partial lookup: `none` models the `IndexError`. -/
def strIndex : Str → Nat → Option Char
  | [], _ => none
  | c :: _, 0 => some c
  | _ :: cs, n + 1 => strIndex cs n

/-- Result of the prefix test in `run`:
`try: if new_message[0] != self.command_prefix: continue`
`except IndexError: if new_message == "": continue else: raise`. -/
inductive PfxCheck where
  | notCommand
  | isCommand (rest : Str)
  | invalidPfx
deriving DecidableEq, Repr

/-- The prefix test of `run` on the fetched text `t` against the configured
command prefix `p` (`new_message[0]` is a one-character string compared to
the whole prefix string); on success the text after the first character
(`new_message[1:]`) is the command message. -/
def pfxCheck (p : Str) (t : Str) : PfxCheck :=
  match strIndex t 0 with
  | some c0 => if [c0] ≠ p then PfxCheck.notCommand else PfxCheck.isCommand (t.drop 1)
  | none => if t = [] then PfxCheck.notCommand else PfxCheck.invalidPfx

/-- The command-dispatch tail of a `run` cycle, entered after
`last_message` has been updated: prefix test, `command_message.split()`
(an empty split means `IndexError` on `[0]`, answered with
"Command not found!"), registry membership test, then the `for` loop that
invokes the unique matching command via `__process_commands`. -/
def dispatchCommand (cmds : Registry) (p : Str) (cfg : ErrorCfg) (t : Str) (m : Message) : Eff :=
  match pfxCheck p t with
  | PfxCheck.notCommand => ⟨[], false, none⟩
  | PfxCheck.invalidPfx => ⟨[], false, some invalidPfxExc⟩
  | PfxCheck.isCommand command_message =>
    match pySplit command_message with
    | [] => ⟨sendMsgEvents (str "Command not found!"), false, none⟩
    | tok :: args =>
      match dictLookup cmds tok with
      | none => ⟨sendMsgEvents (str "Command not found!"), false, none⟩
      | some (f, _) =>
        let e := processCommands cfg f args m
        ⟨Event.commandRun tok args :: e.events, e.stopped, e.raised⟩

/-- The client configuration and registries read by the dispatch loop
(`cmd_pfx` models the attribute `command_prefix`). -/
structure Client where
  commands : Registry
  on_messages : List MsgListener
  on_loops : List LoopListener
  cmd_pfx : Str
  cfg : ErrorCfg

/-- One iteration of the `while self.__running` loop of `run`, for a cycle
in which the send input was located: run loop listeners (an exception they
propagate leaves `run`), then fetch (`none` models
`CannotFindMessageError`, answered with `continue`), then message
listeners — a `CannotFindMessageError` propagated from them is caught by
the same `except` clause — then, only when the fetched text differs from
`last_message`, the assignment `last_message = new_message` followed by the
command dispatch.  (The `if new_message_object is None` arm of the source
is unreachable: `get_last_message` never returns `None`.)  Returns the
cycle's effect and the new `last_message`. -/
def cycle (c : Client) (last : Str) (fetch : Option Message) : Eff × Str :=
  let eL := processLL c.cfg c.on_loops 0
  match eL.raised with
  | some _ => (eL, last)
  | none =>
    match fetch with
    | none => (eL, last)
    | some m =>
      let eM := processML c.cfg c.on_messages 0 m
      let e1 : Eff := ⟨eL.events ++ eM.events, eL.stopped || eM.stopped, eM.raised⟩
      match eM.raised with
      | some e =>
        if e.kind = ExcKind.cannotFindMessage then (⟨e1.events, e1.stopped, none⟩, last)
        else (e1, last)
      | none =>
        let t := m.contents
        if t = last then (e1, last)
        else
          let eD := dispatchCommand c.commands c.cmd_pfx c.cfg t m
          (⟨e1.events ++ Event.updateLast t :: eD.events, e1.stopped || eD.stopped, eD.raised⟩, t)

/-- A run of consecutive poll cycles, each fetching the given message (or
failing to find one): stops early when a cycle re-raises an exception out of
`run` or `__running` was set to `False`. -/
def cycles (c : Client) : Str → List (Option Message) → Eff × Str
  | last, [] => (⟨[], false, none⟩, last)
  | last, f :: fs =>
    let r1 := cycle c last f
    if r1.1.raised.isSome || r1.1.stopped then r1
    else
      let r2 := cycles c r1.2 fs
      (⟨r1.1.events ++ r2.1.events, r2.1.stopped, r2.1.raised⟩, r2.2)

/-- `WhatsappClient.__help_menu`, reading a snapshot of the registry's
`(name, help_message)` pairs and the command prefix at call time.  With no
arguments it sends the single string built from the header and every
name with the prefix occurrences removed, each followed by ", "; with an
argument it sends the matching command's help message ("Command not found!"
when no name matches).  Sending a `None` help message raises inside
`send_message` (`None` has no `splitlines`), modelled as an `other`
exception before anything is sent. -/
def helpMenu (cmds : List (Str × Option Str)) (p : Str) (args : List Str) : List Str × Outcome :=
  match args with
  | [] =>
    ([cmds.foldl (fun acc q => acc ++ removeOcc p q.1 ++ str ", ") (str "List of commands:\n")],
      Outcome.ok)
  | a0 :: _ =>
    match cmds.find? (fun q => decide (a0 = removeOcc p q.1)) with
    | some (_, some htext) => ([htext], Outcome.ok)
    | some (_, none) =>
      ([], Outcome.raised ⟨ExcKind.other, str "AttributeError", str ""⟩)
    | none => ([str "Command not found!"], Outcome.ok)

/-- The `(name, help_message)` snapshot the built-in help command sees in a
client whose registry was never changed. -/
def defaultHelpInfo : List (Str × Option Str) := [(str "help", some (str "Returns help messages"))]

/-- The built-in `help` command function (`__help_menu` takes the two
arguments `(arguments, message_obj)`), in a client with the default
registry and the default prefix "!". -/
def helpFunc : PyFunc := ⟨true, fun args _ => helpMenu defaultHelpInfo (str "!") args⟩

/-- `self.__commands` as initialised by `__init__`:
`{"help": [self.__help_menu, "Returns help messages"]}`. -/
def defaultCommands : Registry := [(str "help", (helpFunc, some (str "Returns help messages")))]

/-- Which upload input `send_file` selects. -/
inductive FileBranch where
  | other
  | img
deriving DecidableEq, Repr

/-- Result of `send_file` up to the transport upload (the polling for the
send control is transport plumbing): either an upload branch was selected,
or one of the two exceptions was raised. -/
inductive SendFileResult where
  | sent (branch : FileBranch)
  | fileTooBig (size : Nat)
  | unknownFileType
deriving DecidableEq, Repr

/-- `WhatsappClient.send_file`: raise `FileTooBigError(file_size)` when
`file_size > 64000000`; otherwise select the upload input for `"other"` or
`"img"`, raising `UnknownFileTypeError` for any other `file_type`. -/
def send_file (file_size : Nat) (file_type : Str) : SendFileResult :=
  if file_size > 64000000 then SendFileResult.fileTooBig file_size
  else if file_type = str "other" then SendFileResult.sent FileBranch.other
  else if file_type = str "img" then SendFileResult.sent FileBranch.img
  else SendFileResult.unknownFileType

/-- The lines a fragment submitted to the chat input, in order. -/
def sentLines (es : List Event) : List Str :=
  es.filterMap (fun ev =>
    match ev with
    | Event.send l => some l
    | _ => none)

/-- The registration indices of the message listeners a fragment invoked,
in order. -/
def listenerIdxs (es : List Event) : List Nat :=
  es.filterMap (fun ev =>
    match ev with
    | Event.listenerRun i => some i
    | _ => none)

/-- Consecutive indices `[i, i+1, ..., i+n-1]`. -/
def idxRange : Nat → Nat → List Nat
  | _, 0 => []
  | i, n + 1 => i :: idxRange (i + 1) n

/-- The Silent error configuration (all flags at their `__init__` default
`False`). -/
def cfgSilent : ErrorCfg := ⟨false, false, false⟩

/-- The Propagate error configuration (`disable_error_handling = True`). -/
def cfgProp : ErrorCfg := ⟨true, false, false⟩

/-- A chat message with text "hi". -/
def msgHi : Message := ⟨false, str "hi"⟩

/-- A chat message with text "!help". -/
def msgHelp : Message := ⟨false, str "!help"⟩

/-- A chat message with text "!foo bar baz". -/
def fooMsg : Message := ⟨false, str "!foo bar baz"⟩

/-- A freshly constructed client: default registry, no listeners, default
prefix "!", Silent error mode. -/
def defaultClient : Client := ⟨defaultCommands, [], [], str "!", cfgSilent⟩

/-- A listener that returns normally without sending anything. -/
def lOk : MsgListener := fun _ => ([], Outcome.ok)

/-- A runtime exception a listener or handler might raise. -/
def exc0 : Exc := ⟨ExcKind.other, str "boom", str "boom traceback"⟩

/-- A listener that raises `exc0`. -/
def lRaise : MsgListener := fun _ => ([], Outcome.raised exc0)

/-- A default client with one registered message listener (`lOk`). -/
def clientC1 : Client := ⟨defaultCommands, [lOk], [], str "!", cfgSilent⟩

/-- A command handler of the right arity that returns normally. -/
def probeFunc : PyFunc := ⟨true, fun _ _ => ([], Outcome.ok)⟩

/-- A client with a `foo` command and one message listener. -/
def clientFoo : Client :=
  ⟨dictInsert defaultCommands (str "foo") (probeFunc, none), [lOk], [], str "!", cfgSilent⟩

/-- A handler of the right arity whose body raises a `TypeError`. -/
def fBodyTypeErr : PyFunc :=
  ⟨true, fun _ _ => ([], Outcome.raised ⟨ExcKind.typeError, str "boom", str "tb"⟩)⟩

theorem find?_overwrite (n : Str) (v : PyFunc × Option Str) :
    ∀ r : Registry, r.any (fun p => decide (p.1 = n)) = true →
      (r.map (fun p => if p.1 = n then (n, v) else p)).find? (fun p => decide (p.1 = n))
        = some (n, v) := by
  intro r
  induction r with
  | nil => intro h; simp at h
  | cons p r' ih =>
    intro h
    by_cases hp : p.1 = n
    · simp [hp]
    · have h' : r'.any (fun p => decide (p.1 = n)) = true := by
        simpa [List.any_cons, hp] using h
      simpa [hp] using ih h'

theorem find?_append_absent (n : Str) (v : PyFunc × Option Str) :
    ∀ r : Registry, r.any (fun p => decide (p.1 = n)) = false →
      (r ++ [(n, v)]).find? (fun p => decide (p.1 = n)) = some (n, v) := by
  intro r
  induction r with
  | nil => intro h; simp
  | cons p r' ih =>
    intro h
    have hp : ¬(p.1 = n) := by
      intro hc
      simp [List.any_cons, hc] at h
    have h' : r'.any (fun p => decide (p.1 = n)) = false := by
      simpa [List.any_cons, hp] using h
    simpa [hp] using ih h'

theorem dictLookup_insert (r : Registry) (n : Str) (v : PyFunc × Option Str) :
    dictLookup (dictInsert r n v) n = some v := by
  unfold dictInsert dictLookup
  by_cases h : r.any (fun p => decide (p.1 = n)) = true
  · simp [h, find?_overwrite n v r h]
  · have h' : r.any (fun p => decide (p.1 = n)) = false := by
      cases hb : r.any (fun p => decide (p.1 = n)) with
      | false => rfl
      | true => exact absurd hb h
    rw [if_neg h, find?_append_absent n v r h']
    rfl

theorem dictLookup_filter_ne (r : Registry) (n : Str) :
    dictLookup (r.filter (fun p => decide (p.1 ≠ n))) n = none := by
  induction r with
  | nil => rfl
  | cons p r' ih =>
    by_cases hp : p.1 = n
    · have hcond : decide (p.1 ≠ n) = false := by simp [hp]
      rw [List.filter_cons, hcond]
      simp only [Bool.false_eq_true, if_false]
      exact ih
    · have hcond : decide (p.1 ≠ n) = true := by simp [hp]
      rw [List.filter_cons, hcond]
      simp only [if_true]
      have hfind : (List.find? (fun q => decide (q.1 = n))
          (p :: List.filter (fun q => decide (q.1 ≠ n)) r'))
          = List.find? (fun q => decide (q.1 = n))
            (List.filter (fun q => decide (q.1 ≠ n)) r') := by
        rw [List.find?_cons]
        simp [hp]
      unfold dictLookup
      rw [hfind]
      exact ih

/-- C4: registering a command stores it unconditionally (last registration
wins, no "already exists" error) and a following lookup returns the stored
handler; removing it succeeds, after which lookup finds nothing and a second
removal raises `CommandNotFoundError`. -/
theorem c4_registry (r : Registry) (n : Str) (f : PyFunc) (hm : Option Str) :
    dictLookup (registerCommand r n f hm) n = some (f, hm) ∧
    (∃ r2, remove_command (registerCommand r n f hm) n = Except.ok r2 ∧
      dictLookup r2 n = none ∧
      remove_command r2 n = Except.error commandNotFoundExc) := by
  have h1 : dictLookup (registerCommand r n f hm) n = some (f, hm) :=
    dictLookup_insert r n (f, hm)
  refine ⟨h1, ⟨(registerCommand r n f hm).filter (fun p => decide (p.1 ≠ n)), ?_, ?_, ?_⟩⟩
  · unfold remove_command
    rw [h1]
  · exact dictLookup_filter_ne _ n
  · unfold remove_command
    rw [dictLookup_filter_ne _ n]

/-- C3: the error handler applies exactly one mode, checking the flags in
the order Propagate (`disable_error_handling`) > EchoException
(`debug_exception`) > EchoTraceback (`debug_traceback`) > Silent; Propagate
sets `__running` to `False` and re-raises the original exception;
EchoException/EchoTraceback send the exception text resp. the traceback
text; Silent sends exactly "An unknown error occurred"; in the three
non-Propagate modes the running flag is untouched and nothing is raised. -/
theorem c3_error_modes (cfg : ErrorCfg) (e : Exc) :
    (cfg.disable_error_handling = true → handleError cfg e = ⟨[], true, some e⟩) ∧
    (cfg.disable_error_handling = false → cfg.debug_exception = true →
      handleError cfg e = ⟨sendMsgEvents (str "Error occurred:\n " ++ e.msg), false, none⟩) ∧
    (cfg.disable_error_handling = false → cfg.debug_exception = false →
      cfg.debug_traceback = true →
      handleError cfg e = ⟨sendMsgEvents (str "Error occurred:\n " ++ e.tb), false, none⟩) ∧
    (cfg.disable_error_handling = false → cfg.debug_exception = false →
      cfg.debug_traceback = false →
      handleError cfg e = ⟨[Event.send (str "An unknown error occurred")], false, none⟩) := by
  refine ⟨fun h1 => ?_, fun h1 h2 => ?_, fun h1 h2 h3 => ?_, fun h1 h2 h3 => ?_⟩
  · simp [handleError, h1]
  · simp [handleError, h1, h2]
  · simp [handleError, h1, h2, h3]
  · simp only [handleError, h1, h2, h3, Bool.false_eq_true, if_false]
    decide

/-- Witness for `c3_error_modes` at the four concrete flag settings. -/
theorem c3_error_modes_witness :
    handleError ⟨true, false, false⟩ exc0 = ⟨[], true, some exc0⟩ ∧
    handleError ⟨false, true, false⟩ exc0
      = ⟨sendMsgEvents (str "Error occurred:\n " ++ exc0.msg), false, none⟩ ∧
    handleError ⟨false, false, true⟩ exc0
      = ⟨sendMsgEvents (str "Error occurred:\n " ++ exc0.tb), false, none⟩ ∧
    handleError ⟨false, false, false⟩ exc0
      = ⟨[Event.send (str "An unknown error occurred")], false, none⟩ :=
  ⟨(c3_error_modes ⟨true, false, false⟩ exc0).1 rfl,
   (c3_error_modes ⟨false, true, false⟩ exc0).2.1 rfl rfl,
   (c3_error_modes ⟨false, false, true⟩ exc0).2.2.1 rfl rfl rfl,
   (c3_error_modes ⟨false, false, false⟩ exc0).2.2.2 rfl rfl rfl⟩

/-- C9: the prefix test of `run` raises `InvalidPrefixError` exactly when
indexing `new_message[0]` fails although the text is non-empty — a
structurally impossible situation, as the third conjunct makes explicit —
and on an empty fetched text the cycle's dispatch tail does nothing and
raises nothing. -/
theorem c9_invalid_pfx :
    (∀ p t, pfxCheck p t = PfxCheck.invalidPfx ↔ (strIndex t 0 = none ∧ t ≠ [])) ∧
    (∀ p t, pfxCheck p t ≠ PfxCheck.invalidPfx) ∧
    (∀ (cmds : Registry) (p : Str) (cfg : ErrorCfg) (m : Message),
      dispatchCommand cmds p cfg [] m = ⟨[], false, none⟩) := by
  have hiff : ∀ p t : Str, pfxCheck p t = PfxCheck.invalidPfx ↔ (strIndex t 0 = none ∧ t ≠ []) := by
    intro p t
    cases t with
    | nil => simp [pfxCheck, strIndex]
    | cons c cs =>
      simp only [pfxCheck, strIndex]
      constructor
      · intro h
        split at h <;> simp_all
      · rintro ⟨h, -⟩
        exact absurd h (by simp)
  refine ⟨hiff, fun p t h => ?_, fun cmds p cfg m => rfl⟩
  have := (hiff p t).mp h
  rcases this with ⟨h0, hne⟩
  cases t with
  | nil => exact hne rfl
  | cons c cs => simp [strIndex] at h0

/-- C10: `send_file` raises `FileTooBigError` exactly when the size exceeds
64,000,000 bytes (the boundary itself passes the size check), and a file
whose type is neither "other" nor "img" and which passes the size check
raises `UnknownFileTypeError`. -/
theorem c10_send_file (size : Nat) (kind : Str) :
    (send_file size kind = SendFileResult.fileTooBig size ↔ 64000000 < size) ∧
    (size ≤ 64000000 → kind ≠ str "other" → kind ≠ str "img" →
      send_file size kind = SendFileResult.unknownFileType) ∧
    (size ≤ 64000000 →
      send_file size (str "other") = SendFileResult.sent FileBranch.other ∧
      send_file size (str "img") = SendFileResult.sent FileBranch.img) := by
  refine ⟨?_, fun h1 h2 h3 => ?_, fun h1 => ?_⟩
  · by_cases hs : 64000000 < size
    · simp [send_file, hs]
    · by_cases h2 : kind = str "other"
      · simp [send_file, hs, h2]
      · by_cases h3 : kind = str "img"
        · have hoi : str "img" ≠ str "other" := by decide
          simp [send_file, hs, h2, h3, hoi]
        · simp [send_file, hs, h2, h3]
  · have hs : ¬(64000000 < size) := Nat.not_lt.mpr h1
    simp [send_file, hs, h2, h3]
  · have hs : ¬(64000000 < size) := Nat.not_lt.mpr h1
    constructor
    · simp [send_file, hs]
    · have : str "img" ≠ str "other" := by decide
      simp [send_file, hs, this]

/-- Witness for `c10_send_file` at the boundary sizes 64,000,001 and
64,000,000 and at the unknown file type "video". -/
theorem c10_send_file_witness :
    send_file 64000001 (str "other") = SendFileResult.fileTooBig 64000001 ∧
    send_file 64000000 (str "other") = SendFileResult.sent FileBranch.other ∧
    send_file 64000000 (str "video") = SendFileResult.unknownFileType :=
  ⟨(c10_send_file 64000001 (str "other")).1.mpr (by norm_num),
   ((c10_send_file 64000000 (str "other")).2.2 (by norm_num)).1,
   (c10_send_file 64000000 (str "video")).2.1 (by norm_num) (by decide) (by decide)⟩

theorem handleError_events_sends (cfg : ErrorCfg) (e : Exc) :
    ∃ ls : List Str, (handleError cfg e).events = ls.map Event.send := by
  unfold handleError
  split
  · exact ⟨[], rfl⟩
  · split
    · exact ⟨_, rfl⟩
    · split
      · exact ⟨_, rfl⟩
      · exact ⟨_, rfl⟩

theorem handleError_no_propagate (cfg : ErrorCfg) (e : Exc)
    (h : cfg.disable_error_handling = false) :
    (handleError cfg e).raised = none ∧ (handleError cfg e).stopped = false := by
  unfold handleError
  rw [h]
  simp only [Bool.false_eq_true, if_false]
  constructor
  · split
    · rfl
    · split <;> rfl
  · split
    · rfl
    · split <;> rfl

theorem cmdRun_notin_map_send (nm : Str) (a : List Str) (ls : List Str) :
    Event.commandRun nm a ∉ ls.map Event.send := by
  simp

theorem cmdRun_notin_sendCalls (nm : Str) (a : List Str) (sends : List Str) :
    Event.commandRun nm a ∉ sendCallsEvents sends :=
  cmdRun_notin_map_send nm a _

theorem cmdRun_notin_handleError (cfg : ErrorCfg) (e : Exc) (nm : Str) (a : List Str) :
    Event.commandRun nm a ∉ (handleError cfg e).events := by
  obtain ⟨ls, hl⟩ := handleError_events_sends cfg e
  rw [hl]
  exact cmdRun_notin_map_send nm a ls

theorem cmdRun_notin_processML (cfg : ErrorCfg) (m : Message) (nm : Str) (a : List Str) :
    ∀ (ls : List MsgListener) (i : Nat),
      Event.commandRun nm a ∉ (processML cfg ls i m).events := by
  intro ls
  induction ls with
  | nil => intro i; simp [processML]
  | cons l rest ih =>
    intro i
    rcases hl : l m with ⟨sends, out⟩
    cases out with
    | ok =>
      simp only [processML, hl]
      intro hmem
      rcases List.mem_cons.mp hmem with h1 | h1
      · exact Event.noConfusion h1
      · rcases List.mem_append.mp h1 with h2 | h2
        · exact cmdRun_notin_sendCalls nm a sends h2
        · exact ih (i + 1) h2
    | raised exc =>
      rcases hh : (handleError cfg exc).raised with _ | e2
      · simp only [processML, hl, hh]
        intro hmem
        rcases List.mem_cons.mp hmem with h1 | h1
        · exact Event.noConfusion h1
        · rcases List.mem_append.mp h1 with h2 | h2
          · rcases List.mem_append.mp h2 with h3 | h3
            · exact cmdRun_notin_sendCalls nm a sends h3
            · exact cmdRun_notin_handleError cfg exc nm a h3
          · exact ih (i + 1) h2
      · simp only [processML, hl, hh]
        intro hmem
        rcases List.mem_cons.mp hmem with h1 | h1
        · exact Event.noConfusion h1
        · rcases List.mem_append.mp h1 with h2 | h2
          · exact cmdRun_notin_sendCalls nm a sends h2
          · exact cmdRun_notin_handleError cfg exc nm a h2

theorem cmdRun_notin_processLL (cfg : ErrorCfg) (nm : Str) (a : List Str) :
    ∀ (ls : List LoopListener) (i : Nat),
      Event.commandRun nm a ∉ (processLL cfg ls i).events := by
  intro ls
  induction ls with
  | nil => intro i; simp [processLL]
  | cons l rest ih =>
    intro i
    rcases hl : l () with ⟨sends, out⟩
    cases out with
    | ok =>
      simp only [processLL, hl]
      intro hmem
      rcases List.mem_cons.mp hmem with h1 | h1
      · exact Event.noConfusion h1
      · rcases List.mem_append.mp h1 with h2 | h2
        · exact cmdRun_notin_sendCalls nm a sends h2
        · exact ih (i + 1) h2
    | raised exc =>
      rcases hh : (handleError cfg exc).raised with _ | e2
      · simp only [processLL, hl, hh]
        intro hmem
        rcases List.mem_cons.mp hmem with h1 | h1
        · exact Event.noConfusion h1
        · rcases List.mem_append.mp h1 with h2 | h2
          · rcases List.mem_append.mp h2 with h3 | h3
            · exact cmdRun_notin_sendCalls nm a sends h3
            · exact cmdRun_notin_handleError cfg exc nm a h3
          · exact ih (i + 1) h2
      · simp only [processLL, hl, hh]
        intro hmem
        rcases List.mem_cons.mp hmem with h1 | h1
        · exact Event.noConfusion h1
        · rcases List.mem_append.mp h1 with h2 | h2
          · exact cmdRun_notin_sendCalls nm a sends h2
          · exact cmdRun_notin_handleError cfg exc nm a h2

/-- C1 (behaviour at the failing input): with one registered message
listener, two consecutive cycles that both fetch the same text "hi" run the
listener twice — once per cycle — because `__process_message_listeners` is
called on every successful fetch, before the `new_message != last_message`
dedup test; only command dispatch and the `last_message` update are
deduplicated. -/
theorem c1_listener_reruns :
    (cycles clientC1 [] [some msgHi, some msgHi]).1.events
      = [Event.listenerRun 0, Event.updateLast (str "hi"), Event.listenerRun 0] := by
  decide

/-- C2 (counterexample): in a dispatching cycle (fetched text "hi" differs
from the empty `last_message`), the first event is a message-listener
invocation and the `last_message` update comes only afterwards, so the
update does not precede every handler as the claim states. -/
theorem c2_counterexample :
    (cycle clientC1 [] (some msgHi)).1.events.head? = some (Event.listenerRun 0) ∧
    Event.updateLast (str "hi") ∈ (cycle clientC1 [] (some msgHi)).1.events := by
  decide

/-- C2 (amended): in every cycle whose fetched text differs from
`last_message` (and whose listeners do not propagate an exception),
`last_message` is updated to the new text after the message listeners ran
but before the command-dispatch tail, so no command handler runs before the
update: every `commandRun` event lies after the `updateLast` event in the
trace. -/
theorem c2_amended (c : Client) (last : Str) (m : Message)
    (hL : (processLL c.cfg c.on_loops 0).raised = none)
    (hM : (processML c.cfg c.on_messages 0 m).raised = none)
    (ht : ¬(m.contents = last)) :
    (cycle c last (some m)).2 = m.contents ∧
    (cycle c last (some m)).1.events
      = ((processLL c.cfg c.on_loops 0).events ++ (processML c.cfg c.on_messages 0 m).events)
        ++ Event.updateLast m.contents
          :: (dispatchCommand c.commands c.cmd_pfx c.cfg m.contents m).events ∧
    (∀ nm a, Event.commandRun nm a
        ∉ (processLL c.cfg c.on_loops 0).events ++ (processML c.cfg c.on_messages 0 m).events) := by
  refine ⟨?_, ?_, ?_⟩
  · simp only [cycle, hL, hM]
    rw [if_neg ht]
  · simp only [cycle, hL, hM]
    rw [if_neg ht]
  · intro nm a
    rw [List.mem_append]
    rintro (h1 | h1)
    · exact cmdRun_notin_processLL c.cfg nm a c.on_loops 0 h1
    · exact cmdRun_notin_processML c.cfg m nm a c.on_messages 0 h1

/-- Witness for `c2_amended` on a concrete client with a `foo` command and
one listener, dispatching "!foo bar baz". -/
theorem c2_amended_witness :
    (cycle clientFoo [] (some fooMsg)).2 = fooMsg.contents ∧
    Event.commandRun (str "foo") [str "bar", str "baz"]
      ∉ (processLL clientFoo.cfg clientFoo.on_loops 0).events
        ++ (processML clientFoo.cfg clientFoo.on_messages 0 fooMsg).events :=
  ⟨(c2_amended clientFoo [] fooMsg rfl rfl (by decide)).1,
   (c2_amended clientFoo [] fooMsg rfl rfl (by decide)).2.2 (str "foo") [str "bar", str "baz"]⟩

/-- C5: with a command `foo` registered (any handler, any help text, any
error configuration) and the default prefix "!", a cycle that fetches the
new message "!foo bar baz" strips the prefix, splits on whitespace, and
invokes exactly the `foo` handler with `args = ["bar", "baz"]` and the
message object. -/
theorem c5_command_args (f : PyFunc) (hm : Option Str) (cfg : ErrorCfg) :
    cycle ⟨dictInsert defaultCommands (str "foo") (f, hm), [], [], str "!", cfg⟩ []
        (some fooMsg)
      = (⟨Event.updateLast (str "!foo bar baz")
            :: Event.commandRun (str "foo") [str "bar", str "baz"]
            :: (processCommands cfg f [str "bar", str "baz"] fooMsg).events,
          (processCommands cfg f [str "bar", str "baz"] fooMsg).stopped,
          (processCommands cfg f [str "bar", str "baz"] fooMsg).raised⟩,
        str "!foo bar baz") := rfl

/-- C6 (counterexample): dispatching "!help" on a fresh client sends two
lines through the transport, not a single line equal to "help". -/
theorem c6_counterexample :
    (sentLines (cycle defaultClient [] (some msgHelp)).1.events).length = 2 ∧
    sentLines (cycle defaultClient [] (some msgHelp)).1.events ≠ [str "help"] := by
  decide

/-- C6 (amended): dispatching "!help" on a fresh client sends exactly the
header line "List of commands:" followed by the listing line "help, " — the
listing consists of the single name `help`, with a trailing comma and
space. -/
theorem c6_amended :
    sentLines (cycle defaultClient [] (some msgHelp)).1.events
      = [str "List of commands:", str "help, "] := by
  decide

/-- C7 (counterexample): with `disable_error_handling = True` (the
Propagate mode of the error policy), a raising first listener prevents the
second listener from running: only `listenerRun 0` appears in the trace and
the exception is re-raised. -/
theorem c7_counterexample :
    (processML cfgProp [lRaise, lOk] 0 msgHi).events = [Event.listenerRun 0] ∧
    (processML cfgProp [lRaise, lOk] 0 msgHi).raised = some exc0 ∧
    (processML cfgProp [lRaise, lOk] 0 msgHi).stopped = true := by
  decide

theorem listenerIdxs_cons_run (i : Nat) (es : List Event) :
    listenerIdxs (Event.listenerRun i :: es) = i :: listenerIdxs es := rfl

theorem listenerIdxs_append (es1 es2 : List Event) :
    listenerIdxs (es1 ++ es2) = listenerIdxs es1 ++ listenerIdxs es2 := by
  simp [listenerIdxs]

theorem listenerIdxs_map_send (ls : List Str) : listenerIdxs (ls.map Event.send) = [] := by
  induction ls with
  | nil => rfl
  | cons s rest ih =>
    simp only [List.map_cons, listenerIdxs, List.filterMap_cons]
    exact ih

theorem listenerIdxs_sendCalls (sends : List Str) :
    listenerIdxs (sendCallsEvents sends) = [] :=
  listenerIdxs_map_send _

/-- C7 (amended): in the three non-Propagate modes
(`disable_error_handling = False`), running the message listeners invokes
every registered listener in registration order — the trace contains
exactly the indices `i, i+1, ...` — and a listener's raising never aborts
the loop, since each invocation's exception is individually absorbed by
`__handle_error`; nothing is re-raised and the running flag is untouched.
Under Propagate the re-raise aborts the remaining listeners
(`c7_counterexample`). -/
theorem c7_amended (cfg : ErrorCfg) (h : cfg.disable_error_handling = false) (m : Message) :
    ∀ (ls : List MsgListener) (i : Nat),
      listenerIdxs (processML cfg ls i m).events = idxRange i ls.length ∧
      (processML cfg ls i m).raised = none ∧
      (processML cfg ls i m).stopped = false := by
  intro ls
  induction ls with
  | nil => intro i; exact ⟨rfl, rfl, rfl⟩
  | cons l rest ih =>
    intro i
    rcases hl : l m with ⟨sends, out⟩
    cases out with
    | ok =>
      obtain ⟨ih1, ih2, ih3⟩ := ih (i + 1)
      simp only [processML, hl]
      refine ⟨?_, ih2, ih3⟩
      rw [listenerIdxs_cons_run, listenerIdxs_append, listenerIdxs_sendCalls, ih1]
      rfl
    | raised exc =>
      obtain ⟨hr, hs⟩ := handleError_no_propagate cfg exc h
      obtain ⟨sl, hsl⟩ := handleError_events_sends cfg exc
      obtain ⟨ih1, ih2, ih3⟩ := ih (i + 1)
      simp only [processML, hl, hr]
      refine ⟨?_, ih2, ?_⟩
      · rw [listenerIdxs_cons_run, listenerIdxs_append, listenerIdxs_append,
          listenerIdxs_sendCalls, hsl, listenerIdxs_map_send, ih1]
        rfl
      · rw [hs, ih3]
        rfl

/-- Witness for `c7_amended`: Silent mode, a raising first listener and a
normal second listener — both run, in order. -/
theorem c7_amended_witness :
    listenerIdxs (processML cfgSilent [lRaise, lOk] 0 msgHi).events = idxRange 0 2 ∧
    (processML cfgSilent [lRaise, lOk] 0 msgHi).raised = none ∧
    (processML cfgSilent [lRaise, lOk] 0 msgHi).stopped = false :=
  c7_amended cfgSilent rfl msgHi [lRaise, lOk] 0

/-- A handler whose signature does not take two arguments (its body is
irrelevant: the call itself raises `TypeError`). -/
def fArity0 : PyFunc := ⟨false, fun _ _ => ([], Outcome.ok)⟩

/-- A two-argument handler whose body raises a non-`TypeError` runtime
exception. -/
def fBodyOther : PyFunc := ⟨true, fun _ _ => ([], Outcome.raised exc0)⟩

/-- C8 (counterexample): a `TypeError` raised inside the body of a handler
with the correct two-argument signature is reported with the same
"doesn't take 2 arguments" chat message as a signature mismatch — it is
not routed through the error policy, which in Silent mode would have sent
"An unknown error occurred". -/
theorem c8_counterexample :
    processCommands cfgSilent fBodyTypeErr [] msgHi
      = ⟨[Event.send arityErrStr], false, none⟩ ∧
    (handleError cfgSilent ⟨ExcKind.typeError, str "boom", str "tb"⟩).events
      = [Event.send (str "An unknown error occurred")] ∧
    Event.send (str "An unknown error occurred")
      ∉ (processCommands cfgSilent fBodyTypeErr [] msgHi).events := by
  decide

/-- C8 (amended): a signature mismatch is reported as the dispatch-error
chat message and nothing is raised to the caller; a non-`TypeError`
exception raised inside the handler's body goes through the error policy
(`__handle_error`); but a `TypeError` raised inside the body receives the
same dispatch-error chat message as a signature mismatch — the two are
indistinguishable to the `except TypeError` clause. -/
theorem c8_amended (cfg : ErrorCfg) (f : PyFunc) (args : List Str) (m : Message) :
    (f.arity2 = false →
      processCommands cfg f args m = ⟨sendMsgEvents arityErrStr, false, none⟩) ∧
    (∀ sends e, f.arity2 = true → f.body args m = (sends, Outcome.raised e) →
      ¬(e.kind = ExcKind.typeError) →
      processCommands cfg f args m
        = ⟨sendCallsEvents sends ++ (handleError cfg e).events,
            (handleError cfg e).stopped, (handleError cfg e).raised⟩) ∧
    (∀ sends e, f.arity2 = true → f.body args m = (sends, Outcome.raised e) →
      e.kind = ExcKind.typeError →
      processCommands cfg f args m
        = ⟨sendCallsEvents sends ++ sendMsgEvents arityErrStr, false, none⟩) := by
  refine ⟨fun h1 => ?_, fun sends e h1 h2 h3 => ?_, fun sends e h1 h2 h3 => ?_⟩
  · simp [processCommands, callFunc, h1, typeErrorExc, sendCallsEvents]
  · simp [processCommands, callFunc, h1, h2, h3]
  · simp [processCommands, callFunc, h1, h2, h3]

/-- Witness for `c8_amended` at the three concrete handler shapes: wrong
arity, body raising a non-`TypeError`, body raising a `TypeError`. -/
theorem c8_amended_witness :
    processCommands cfgSilent fArity0 [] msgHi = ⟨sendMsgEvents arityErrStr, false, none⟩ ∧
    processCommands cfgSilent fBodyOther [] msgHi
      = ⟨sendCallsEvents [] ++ (handleError cfgSilent exc0).events,
          (handleError cfgSilent exc0).stopped, (handleError cfgSilent exc0).raised⟩ ∧
    processCommands cfgSilent fBodyTypeErr [] msgHi
      = ⟨sendCallsEvents [] ++ sendMsgEvents arityErrStr, false, none⟩ :=
  ⟨(c8_amended cfgSilent fArity0 [] msgHi).1 rfl,
   (c8_amended cfgSilent fBodyOther [] msgHi).2.1 [] exc0 rfl rfl (by decide),
   (c8_amended cfgSilent fBodyTypeErr [] msgHi).2.2 []
     ⟨ExcKind.typeError, str "boom", str "tb"⟩ rfl rfl rfl⟩

end WClient
